import Mathlib

/-!
Verification of the Match Lifecycle & Settlement Engine of the
PlayFree.Bet repository, as a shallow embedding in Lean 4.

The definitions below are translated from the Go source:
  * the data model mirrors `models.go` (`Match`, `Bet`) and the
    `users.money` balance column of `postgres_init.sql`;
  * the store operations mirror the `PostgresDB` methods
    (`GetMatchByAPIID`, `UpdateMatchByAPIID`, `UpsertMatch`,
    `GetCompletedUncalculatedMatches`, `UpdateMatchCalculated`,
    `UpdateBetsStatusAndUserMoney`);
  * the feed layer mirrors `processOddsEvent`, `processScoreEvent` and the
    all-or-nothing JSON decode of `fetchOddsFromAPI`;
  * the handlers mirror the per-event loop bodies of `oddsSyncHandler`,
    `scoresSyncHandler` and `calcHandler` in `handlers.go`.

The database is modelled as in-memory lists of rows; a SQL `UPDATE ... WHERE`
becomes a `List.map` guarded by the `WHERE` predicate, a `SELECT ... WHERE`
becomes a `List.filter`, and the settlement transaction's rollback is
modelled by building the transaction's writes on the side and installing
them only on commit (mirroring `tx.Begin` / `tx.Rollback` / `tx.Commit`).
Generated surrogate UUID columns and timestamps irrelevant to the verified
properties are omitted from the row types.
-/

namespace FreeBet

/-- One row of `epl_matches` / the Go `Match` struct (`models.go`).
`none` models SQL NULL / a Go nil pointer.  `commenceTime = 0` models the
Go zero `time.Time` (the code tests `CommenceTime.IsZero()`). -/
structure Match where
  apiID : String
  homeTeam : String
  awayTeam : String
  commenceTime : Nat
  homeOdds : Option ℚ
  drawOdds : Option ℚ
  awayOdds : Option ℚ
  completed : Bool
  homeScore : Option Int
  awayScore : Option Int
  calculated : Bool
  result : Option String
deriving DecidableEq

/-- One row of `bets` / the Go `Bet` struct (`models.go`). -/
structure Bet where
  betID : String
  userID : String
  matchID : String
  betType : String
  betAmount : ℚ
  odds : ℚ
  potentialWin : ℚ
  status : String
deriving DecidableEq

/-- The part of a `users` row the settlement engine touches: the
`money` balance column. -/
structure User where
  id : String
  money : ℚ
deriving DecidableEq

/-- The relational store: the three tables the engine reads and writes.
(`matchRows` is the `epl_matches` table; `matches` is a reserved word in
Lean.) -/
structure DBState where
  matchRows : List Match
  bets : List Bet
  users : List User
deriving DecidableEq

/-- `SELECT ... FROM epl_matches WHERE api_id = $1` (`GetMatchByAPIID`). -/
def GetMatchByAPIID (st : DBState) (apiID : String) : Option Match :=
  st.matchRows.find? (fun m => m.apiID == apiID)

/-- The dynamic `UPDATE` built by `UpdateMatchByAPIID`: each column is added
to the SET list only when the incoming Go value is non-zero/non-nil;
`completed` is always in the SET list. -/
def applyMatchUpdate (incoming stored : Match) : Match :=
  { stored with
    homeTeam := if incoming.homeTeam == "" then stored.homeTeam else incoming.homeTeam
    awayTeam := if incoming.awayTeam == "" then stored.awayTeam else incoming.awayTeam
    commenceTime := if incoming.commenceTime == 0 then stored.commenceTime else incoming.commenceTime
    homeOdds := match incoming.homeOdds with
      | some v => some v
      | none => stored.homeOdds
    drawOdds := match incoming.drawOdds with
      | some v => some v
      | none => stored.drawOdds
    awayOdds := match incoming.awayOdds with
      | some v => some v
      | none => stored.awayOdds
    homeScore := match incoming.homeScore with
      | some v => some v
      | none => stored.homeScore
    awayScore := match incoming.awayScore with
      | some v => some v
      | none => stored.awayScore
    completed := incoming.completed }

/-- `UPDATE epl_matches SET ... WHERE api_id = $n` (`UpdateMatchByAPIID`). -/
def UpdateMatchByAPIID (st : DBState) (apiID : String) (incoming : Match) : DBState :=
  { st with matchRows :=
      st.matchRows.map (fun m => if m.apiID == apiID then applyMatchUpdate incoming m else m) }

/-- The `INSERT` of `UpsertMatch`: a nil Go score pointer is inserted as the
sentinel value `-1` (`homeScore := -1; if match.HomeScore != nil ...`). -/
def insertRow (m : Match) : Match :=
  { m with
    homeScore := some (m.homeScore.getD (-1))
    awayScore := some (m.awayScore.getD (-1)) }

/-- `UpsertMatch`: look the row up by `api_id`; update when present,
insert when absent. -/
def UpsertMatch (st : DBState) (m : Match) : DBState :=
  match GetMatchByAPIID st m.apiID with
  | some _ => UpdateMatchByAPIID st m.apiID m
  | none => { st with matchRows := st.matchRows ++ [insertRow m] }

/-- SQL `home_score IS NOT NULL AND home_score != -1` for one side
(a NULL score also fails the `!= -1` comparison in SQL). -/
def scoreOK : Option Int → Bool
  | none => false
  | some s => s != -1

/-- The `WHERE` clause of `GetCompletedUncalculatedMatches`:
`completed = TRUE AND calculated = FALSE AND home_score IS NOT NULL
AND away_score IS NOT NULL AND home_score != -1 AND away_score != -1`. -/
def candMatch (m : Match) : Bool :=
  m.completed && !m.calculated && scoreOK m.homeScore && scoreOK m.awayScore

/-- `GetCompletedUncalculatedMatches`: the settlement candidate query. -/
def GetCompletedUncalculatedMatches (st : DBState) : List Match :=
  st.matchRows.filter candMatch

/-- `UPDATE epl_matches SET calculated = TRUE, result = $1 WHERE api_id = $2`
(`UpdateMatchCalculated`). -/
def UpdateMatchCalculated (st : DBState) (apiID result : String) : DBState :=
  { st with matchRows :=
      st.matchRows.map (fun m =>
        if m.apiID == apiID then { m with calculated := true, result := some result } else m) }

/-- The conditional bulk update of `UpdateBetsStatusAndUserMoney`:
`SET status = CASE WHEN bet_type = $1 THEN 'won' ELSE 'lost' END
WHERE match_id = $2 AND status = 'pending'`, applied to one row. -/
def settleBetStatus (apiID result : String) (b : Bet) : Bet :=
  if b.matchID == apiID && b.status == "pending" then
    { b with status := if b.betType == result then "won" else "lost" }
  else b

/-- The winning rows collected from the bulk update's `RETURNING` clause:
the rows that were `pending` on this match and whose `bet_type` equals the
result (those scanned back with status `won`). -/
def winnersOf (bets : List Bet) (apiID result : String) : List (String × ℚ) :=
  (bets.filter (fun b => b.matchID == apiID && b.status == "pending" && b.betType == result)).map
    (fun b => (b.userID, b.potentialWin))

/-- The per-winner credit loop inside the transaction:
`UPDATE users SET money = money + $1 WHERE id = $2` for each winning bet,
in order.  `failCredit` injects a failure of one credit `Exec` (the fault
injection of the atomicity property); on failure the whole transaction
errors. -/
def creditAll (failCredit : String → ℚ → Bool) :
    List User → List (String × ℚ) → Except Unit (List User)
  | users, [] => Except.ok users
  | users, (uid, amt) :: rest =>
    if failCredit uid amt then Except.error ()
    else creditAll failCredit
      (users.map (fun u => if u.id == uid then { u with money := u.money + amt } else u)) rest

/-- `UpdateBetsStatusAndUserMoney`: one settlement transaction.  The bet
status bulk-update and the balance credits are built against the
transaction; they become visible only on `Commit` (`Except.ok`), and an
error path leaves the store untouched (`defer tx.Rollback`). -/
def UpdateBetsStatusAndUserMoney (failCredit : String → ℚ → Bool)
    (st : DBState) (apiID result : String) : Except Unit DBState :=
  let newBets := st.bets.map (settleBetStatus apiID result)
  match creditAll failCredit st.users (winnersOf st.bets apiID result) with
  | Except.error e => Except.error e
  | Except.ok newUsers => Except.ok { st with bets := newBets, users := newUsers }

/-- Outcome computation in `calcHandler`. -/
def computeResult (homeScore awayScore : Int) : String :=
  if homeScore > awayScore then "home"
  else if homeScore < awayScore then "away"
  else "draw"

/-- The body of `calcHandler`'s per-match loop: skip when a score pointer is
nil; otherwise compute the result, run the settlement transaction
(`continue` on error, leaving the store as it was), and only then mark the
match calculated. -/
def settleOneMatch (failCredit : String → ℚ → Bool) (st : DBState) (m : Match) :
    DBState × Option String :=
  match m.homeScore, m.awayScore with
  | some hs, some aw =>
    let res := computeResult hs aw
    match UpdateBetsStatusAndUserMoney failCredit st m.apiID res with
    | Except.error _ => (st, none)
    | Except.ok st' => (UpdateMatchCalculated st' m.apiID res, some res)
  | _, _ => (st, none)

/-- `calcHandler`'s loop over the candidate list (the list is computed once,
up front, and the state evolves through the loop). -/
def settleLoop (failCredit : String → ℚ → Bool) (st : DBState) (cands : List Match) : DBState :=
  cands.foldl (fun s c => (settleOneMatch failCredit s c).1) st

/-- One `Settle()` invocation (`calcHandler`): select the candidates, then
settle each in turn. -/
def settleState (failCredit : String → ℚ → Bool) (st : DBState) : DBState :=
  settleLoop failCredit st (GetCompletedUncalculatedMatches st)

/-- The no-fault credit oracle: every balance-credit write succeeds. -/
def noFail : String → ℚ → Bool := fun _ _ => false

/-- Sum of the credit amounts a given user receives from a winner list. -/
def creditSum (ws : List (String × ℚ)) (uid : String) : ℚ :=
  ((ws.filter (fun w => w.1 == uid)).map Prod.snd).sum

/-- Per-user sum of the potential payouts this settlement credits:
the total of `potential_win` over the user's winning rows. -/
def winTotal (bets : List Bet) (apiID result uid : String) : ℚ :=
  creditSum (winnersOf bets apiID result) uid

/-! ### Feed layer -/

/-- One quote of `bookmakers[i].markets[j].outcomes` (`OddsAPIEvent`). -/
structure Outcome where
  name : String
  price : ℚ
deriving DecidableEq

/-- One market of an odds feed record. -/
structure Market where
  outcomes : List Outcome
deriving DecidableEq

/-- One bookmaker of an odds feed record. -/
structure Bookmaker where
  markets : List Market
deriving DecidableEq

/-- A decoded odds feed record (`OddsAPIEvent`). -/
structure OddsAPIEvent where
  id : String
  commenceTime : Nat
  homeTeam : String
  awayTeam : String
  bookmakers : List Bookmaker
deriving DecidableEq

/-- One iteration of `processOddsEvent`'s outcome loop: the quote named
like the home team gives home odds, like the away team away odds, the
literal `"Draw"` the draw odds; other quotes are ignored. -/
def oddsOutcomeStep (ev : OddsAPIEvent) (acc : Match) (o : Outcome) : Match :=
  if o.name == ev.homeTeam then { acc with homeOdds := some o.price }
  else if o.name == ev.awayTeam then { acc with awayOdds := some o.price }
  else if o.name == "Draw" then { acc with drawOdds := some o.price }
  else acc

/-- `processOddsEvent`: build a `Match` fact from an odds record.  Only
`bookmakers[0].markets[0]` is read, and only when both lists are
non-empty. -/
def processOddsEvent (ev : OddsAPIEvent) : Match :=
  let base : Match :=
    { apiID := ev.id, homeTeam := ev.homeTeam, awayTeam := ev.awayTeam
      commenceTime := ev.commenceTime
      homeOdds := none, drawOdds := none, awayOdds := none
      completed := false, homeScore := none, awayScore := none
      calculated := false, result := none }
  match ev.bookmakers with
  | [] => base
  | bk :: _ =>
    match bk.markets with
    | [] => base
    | mkt :: _ => mkt.outcomes.foldl (oddsOutcomeStep ev) base

/-- One per-side entry of a scores feed record. -/
structure ScoreEntry where
  name : String
  score : String
deriving DecidableEq

/-- A decoded scores feed record (`ScoresAPIEvent`). -/
structure ScoresAPIEvent where
  id : String
  commenceTime : Nat
  homeTeam : String
  awayTeam : String
  completed : Bool
  scores : List ScoreEntry
deriving DecidableEq

/-- Digit run of `strconv.Atoi`: all characters must be decimal digits and
there must be at least one. -/
def atoiDigits (cs : List Char) : Option Nat :=
  match cs with
  | [] => none
  | _ =>
    cs.foldl (fun acc c =>
      acc.bind (fun n => if c.isDigit then some (n * 10 + (c.toNat - 48)) else none))
      (some 0)

/-- `strconv.Atoi`: optional sign followed by a non-empty digit run,
`none` on anything else.  (Machine-size overflow is out of scope here;
feed scores are small.) -/
def atoi (s : String) : Option Int :=
  match s.data with
  | [] => none
  | c :: rest =>
    if c == '-' then (atoiDigits rest).map (fun n => -(n : Int))
    else if c == '+' then (atoiDigits rest).map (fun n => (n : Int))
    else (atoiDigits (c :: rest)).map (fun n => (n : Int))

/-- The score-extraction loop of `processScoreEvent`: starting from the
sentinel `-1` for each side, an entry named like the home (resp. away) team
whose non-empty score string parses overwrites that side's value. -/
def scoreFold (homeTeam awayTeam : String) (entries : List ScoreEntry) : Int × Int :=
  entries.foldl (fun p e =>
    if e.name == homeTeam then
      if e.score == "" then p
      else match atoi e.score with
        | some s => (s, p.2)
        | none => p
    else if e.name == awayTeam then
      if e.score == "" then p
      else match atoi e.score with
        | some s => (p.1, s)
        | none => p
    else p) (-1, -1)

/-- `processScoreEvent`: build a `Match` fact from a scores record; a side
whose extracted value is still the sentinel `-1` is reported with a nil
score pointer. -/
def processScoreEvent (ev : ScoresAPIEvent) : Match :=
  let p := scoreFold ev.homeTeam ev.awayTeam ev.scores
  { apiID := ev.id, homeTeam := ev.homeTeam, awayTeam := ev.awayTeam
    commenceTime := ev.commenceTime
    homeOdds := none, drawOdds := none, awayOdds := none
    completed := ev.completed
    homeScore := if p.1 == -1 then none else some p.1
    awayScore := if p.2 == -1 then none else some p.2
    calculated := false, result := none }

/-! ### Sync handlers -/

/-- Outcome tag of one upsert in a sync batch (the `results` counters map). -/
inductive SyncTag
  | created
  | updated
  | skipped
deriving DecidableEq

/-- The body of `oddsSyncHandler`'s per-event loop: on an existing match,
pre-merge "keep previous odds when the new value is nil" and update; on a
new match, create only when all three odds are present, else count it
skipped. -/
def oddsSyncOne (st : DBState) (ev : OddsAPIEvent) : DBState × SyncTag :=
  let m := processOddsEvent ev
  match GetMatchByAPIID st m.apiID with
  | some existing =>
    let m' := { m with
      homeOdds := match m.homeOdds with
        | none => existing.homeOdds
        | some v => some v
      drawOdds := match m.drawOdds with
        | none => existing.drawOdds
        | some v => some v
      awayOdds := match m.awayOdds with
        | none => existing.awayOdds
        | some v => some v }
    (UpdateMatchByAPIID st m.apiID m', SyncTag.updated)
  | none =>
    if m.homeOdds.isNone || m.drawOdds.isNone || m.awayOdds.isNone then (st, SyncTag.skipped)
    else (UpsertMatch st m, SyncTag.created)

/-- The body of `scoresSyncHandler`'s per-event loop: on an existing match,
carry the stored odds over (don't touch odds) and update; on a new match,
create with all odds nil. -/
def scoresSyncOne (st : DBState) (ev : ScoresAPIEvent) : DBState × SyncTag :=
  let m := processScoreEvent ev
  match GetMatchByAPIID st m.apiID with
  | some existing =>
    let m' := { m with
      homeOdds := existing.homeOdds
      drawOdds := existing.drawOdds
      awayOdds := existing.awayOdds }
    (UpdateMatchByAPIID st m.apiID m', SyncTag.updated)
  | none =>
    let m' := { m with homeOdds := none, drawOdds := none, awayOdds := none }
    (UpsertMatch st m', SyncTag.created)

/-- The state after `oddsSyncHandler` processes a decoded batch in order. -/
def oddsSyncLoopState (st : DBState) (evs : List OddsAPIEvent) : DBState :=
  evs.foldl (fun s ev => (oddsSyncOne s ev).1) st

/-- The state after `scoresSyncHandler` processes a decoded batch in order. -/
def scoresSyncLoopState (st : DBState) (evs : List ScoresAPIEvent) : DBState :=
  evs.foldl (fun s ev => (scoresSyncOne s ev).1) st

/-- One raw record of the odds feed response body.  `commenceTime = none`
models a record whose timestamp string fails to parse while the JSON body
is decoded (Go `time.Time` unmarshalling rejects it). -/
structure RawOddsRecord where
  id : String
  commenceTime : Option Nat
  homeTeam : String
  awayTeam : String
  bookmakers : List Bookmaker
deriving DecidableEq

/-- Decoding one raw record into an `OddsAPIEvent`. -/
def decodeOddsRecord (r : RawOddsRecord) : Option OddsAPIEvent :=
  r.commenceTime.map (fun t =>
    { id := r.id, commenceTime := t, homeTeam := r.homeTeam
      awayTeam := r.awayTeam, bookmakers := r.bookmakers })

/-- The single `json.Decode(&events)` of `fetchOddsFromAPI`: decoding the
response body is all-or-nothing — one undecodable record fails the whole
decode. -/
def decodeOddsBatch : List RawOddsRecord → Option (List OddsAPIEvent)
  | [] => some []
  | r :: rs =>
    match decodeOddsRecord r with
    | none => none
    | some ev => (decodeOddsBatch rs).map (fun evs => ev :: evs)

/-- The `created`/`updated`/`skipped` counters of a sync response. -/
structure SyncCounts where
  created : Nat
  updated : Nat
  skipped : Nat
deriving DecidableEq

/-- Bump the counter named by the tag. -/
def bumpCount (c : SyncCounts) : SyncTag → SyncCounts
  | SyncTag.created => { c with created := c.created + 1 }
  | SyncTag.updated => { c with updated := c.updated + 1 }
  | SyncTag.skipped => { c with skipped := c.skipped + 1 }

/-- `oddsSyncHandler`'s loop with its counters. -/
def oddsSyncLoop (st : DBState) (c : SyncCounts) : List OddsAPIEvent → DBState × SyncCounts
  | [] => (st, c)
  | ev :: rest =>
    let p := oddsSyncOne st ev
    oddsSyncLoop p.1 (bumpCount c p.2) rest

/-- `oddsSyncHandler` from the fetch on: a failed decode returns the error
to the caller without touching the store; a successful decode runs the
per-event loop. -/
def oddsSyncHandler (st : DBState) (raw : List RawOddsRecord) :
    DBState × Except String SyncCounts :=
  match decodeOddsBatch raw with
  | none => (st, Except.error "failed to decode response")
  | some evs =>
    let p := oddsSyncLoop st { created := 0, updated := 0, skipped := 0 } evs
    (p.1, Except.ok p.2)

/-! ### Engine-level relations for the lifecycle invariant -/

/-- The candidate set exactly as claim C6's sentence words it, for
comparison with the query embedded from the source. -/
def specCandidate (m : Match) : Bool :=
  m.completed && !m.calculated && !m.homeScore.isNone && !m.awayScore.isNone

/-- `api_id` is a UNIQUE column of `epl_matches` (`postgres_init.sql`). -/
def UniqueIDs (st : DBState) : Prop :=
  (st.matchRows.map Match.apiID).Nodup

/-- The settled-is-consistent invariant: a calculated match has a non-null
result and no pending wager referencing it. -/
def Inv (st : DBState) : Prop :=
  ∀ m ∈ st.matchRows, m.calculated = true →
    m.result ≠ none ∧ ∀ b ∈ st.bets, b.matchID = m.apiID → b.status ≠ "pending"

/-- One engine operation: an odds sync, a scores sync, or a settlement
invocation (with any injected credit-failure pattern). -/
inductive EngineStep : DBState → DBState → Prop
  | odds (st : DBState) (evs : List OddsAPIEvent) :
      EngineStep st (oddsSyncLoopState st evs)
  | scores (st : DBState) (evs : List ScoresAPIEvent) :
      EngineStep st (scoresSyncLoopState st evs)
  | settle (st : DBState) (failCredit : String → ℚ → Bool) :
      EngineStep st (settleState failCredit st)

/-- States reachable from `st0` by engine operations. -/
inductive Reachable (st0 : DBState) : DBState → Prop
  | refl : Reachable st0 st0
  | tail {st st' : DBState} : Reachable st0 st → EngineStep st st' → Reachable st0 st'

/-! ### Concrete instances used to exercise the theorems -/

/-- A completed, unsettled 2–1 match. -/
def w1Match : Match :=
  { apiID := "m1", homeTeam := "A", awayTeam := "B", commenceTime := 5
    homeOdds := some 2, drawOdds := some 3, awayOdds := some 4
    completed := true, homeScore := some 2, awayScore := some 1
    calculated := false, result := none }

/-- A pending `home` wager on `w1Match`. -/
def w1BetHome : Bet :=
  { betID := "b1", userID := "alice", matchID := "m1", betType := "home"
    betAmount := 10, odds := 3, potentialWin := 30, status := "pending" }

/-- A pending `draw` wager on `w1Match`. -/
def w1BetDraw : Bet :=
  { betID := "b2", userID := "bob", matchID := "m1", betType := "draw"
    betAmount := 10, odds := 3, potentialWin := 30, status := "pending" }

/-- A store holding `w1Match`, the two wagers and their owners. -/
def w1State : DBState :=
  { matchRows := [w1Match]
    bets := [w1BetHome, w1BetDraw]
    users := [{ id := "alice", money := 100 }, { id := "bob", money := 50 }] }

/-- A credit oracle that fails the balance write for user `alice`. -/
def failAlice : String → ℚ → Bool := fun uid _ => uid == "alice"

/-- A stored match that is already completed (for the completed-flag
counterexample). -/
def cm5 : Match :=
  { apiID := "m5", homeTeam := "A", awayTeam := "B", commenceTime := 5
    homeOdds := some 2, drawOdds := some 3, awayOdds := some 4
    completed := true, homeScore := none, awayScore := none
    calculated := false, result := none }

/-- A store holding only `cm5`. -/
def cst5 : DBState := { matchRows := [cm5], bets := [], users := [] }

/-- An odds feed record for `cm5`'s fixture carrying no bookmaker quotes. -/
def cev5 : OddsAPIEvent :=
  { id := "m5", commenceTime := 9, homeTeam := "A", awayTeam := "B", bookmakers := [] }

/-- A completed, uncalculated row whose home score holds the non-NULL
sentinel `-1` (for the candidate-set counterexample). -/
def cm6 : Match :=
  { apiID := "m6", homeTeam := "A", awayTeam := "B", commenceTime := 5
    homeOdds := some 2, drawOdds := some 3, awayOdds := some 4
    completed := true, homeScore := some (-1), awayScore := some 0
    calculated := false, result := none }

/-- A store holding only `cm6`. -/
def cst6 : DBState := { matchRows := [cm6], bets := [], users := [] }

/-- A completed, uncalculated row whose home score is NULL. -/
def cm6null : Match := { cm6 with apiID := "m6n", homeScore := none }

/-- A store holding only `cm6null`. -/
def cst6null : DBState := { matchRows := [cm6null], bets := [], users := [] }

/-- A well-formed raw odds record (parseable timestamp). -/
def goodRaw (i : String) : RawOddsRecord :=
  { id := i, commenceTime := some 5, homeTeam := "A", awayTeam := "B", bookmakers := [] }

/-- A raw odds record whose timestamp fails to parse. -/
def badRaw : RawOddsRecord :=
  { id := "bad", commenceTime := none, homeTeam := "A", awayTeam := "B", bookmakers := [] }

/-- A feed batch of nine valid records and one malformed record. -/
def cBatch9 : List RawOddsRecord :=
  [goodRaw "g1", goodRaw "g2", goodRaw "g3", goodRaw "g4", badRaw,
   goodRaw "g5", goodRaw "g6", goodRaw "g7", goodRaw "g8", goodRaw "g9"]

/-- An odds feed record quoting all three outcomes. -/
def oevW : OddsAPIEvent :=
  { id := "m8", commenceTime := 7, homeTeam := "A", awayTeam := "B"
    bookmakers := [{ markets := [{ outcomes :=
      [{ name := "A", price := 2 }, { name := "Draw", price := 3 }, { name := "B", price := 4 }] }] }] }

/-- A scores feed record for a fixture not yet stored. -/
def sevW : ScoresAPIEvent :=
  { id := "m9", commenceTime := 7, homeTeam := "A", awayTeam := "B", completed := true
    scores := [{ name := "A", score := "2" }, { name := "B", score := "1" }] }

/-- A scores feed record whose home score string is the sentinel `-1`. -/
def sevMinus1 : ScoresAPIEvent :=
  { id := "m10", commenceTime := 7, homeTeam := "A", awayTeam := "B", completed := true
    scores := [{ name := "A", score := "-1" }] }

/-- An empty store. -/
def emptyState : DBState := { matchRows := [], bets := [], users := [] }

/-- An incoming merge fact with only a home-odds value (for the
frame-property witness). -/
def w4Incoming : Match :=
  { apiID := "m1", homeTeam := "", awayTeam := "", commenceTime := 0
    homeOdds := some 7, drawOdds := none, awayOdds := none
    completed := false, homeScore := none, awayScore := none
    calculated := false, result := none }

/-! ### Basic frame lemmas -/

theorem applyMatchUpdate_apiID (inc r : Match) : (applyMatchUpdate inc r).apiID = r.apiID := rfl

theorem applyMatchUpdate_calculated (inc r : Match) :
    (applyMatchUpdate inc r).calculated = r.calculated := rfl

theorem applyMatchUpdate_result (inc r : Match) : (applyMatchUpdate inc r).result = r.result := rfl

theorem UpdateMatchByAPIID_bets (st : DBState) (apiID : String) (inc : Match) :
    (UpdateMatchByAPIID st apiID inc).bets = st.bets := rfl

theorem UpdateMatchByAPIID_users (st : DBState) (apiID : String) (inc : Match) :
    (UpdateMatchByAPIID st apiID inc).users = st.users := rfl

theorem UpdateMatchCalculated_bets (st : DBState) (apiID result : String) :
    (UpdateMatchCalculated st apiID result).bets = st.bets := rfl

theorem UpdateMatchCalculated_users (st : DBState) (apiID result : String) :
    (UpdateMatchCalculated st apiID result).users = st.users := rfl

theorem settleBetStatus_matchID (apiID result : String) (b : Bet) :
    (settleBetStatus apiID result b).matchID = b.matchID := by
  unfold settleBetStatus; split <;> rfl

theorem settleBetStatus_userID (apiID result : String) (b : Bet) :
    (settleBetStatus apiID result b).userID = b.userID := by
  unfold settleBetStatus; split <;> rfl

/-- Under the no-fault oracle every credit write succeeds, and each user's
final balance is their initial balance plus the sum of their credits. -/
theorem creditAll_noFail (users : List User) (ws : List (String × ℚ)) :
    creditAll noFail users ws =
      Except.ok (users.map (fun u => { u with money := u.money + creditSum ws u.id })) := by
  induction ws generalizing users with
  | nil =>
    simp only [creditAll, creditSum, List.filter_nil, List.map_nil, List.sum_nil, add_zero]
    congr 1
    exact (List.map_id users).symm
  | cons head rest ih =>
    obtain ⟨uid, amt⟩ := head
    simp only [creditAll, noFail, if_false, Bool.false_eq_true]
    rw [ih, List.map_map]
    congr 1
    apply List.map_congr_left
    intro u _
    by_cases h : u.id = uid
    · subst h
      simp [creditSum, List.filter_cons, Function.comp, add_assoc]
    · have h1 : (u.id == uid) = false := beq_eq_false_iff_ne.mpr h
      have h2 : (uid == u.id) = false := beq_eq_false_iff_ne.mpr (Ne.symm h)
      simp [creditSum, List.filter_cons, Function.comp, h1, h2]

/-- The settlement transaction under the no-fault oracle: it commits, the
bet statuses take the bulk-update values, and every balance is credited by
that user's winning total. -/
theorem UpdateBets_noFail (st : DBState) (apiID result : String) :
    UpdateBetsStatusAndUserMoney noFail st apiID result =
      Except.ok { st with
        bets := st.bets.map (settleBetStatus apiID result)
        users := st.users.map
          (fun u => { u with money := u.money + winTotal st.bets apiID result u.id }) } := by
  unfold UpdateBetsStatusAndUserMoney
  rw [creditAll_noFail]
  rfl

/-- C1: for a settled match the computed result is `home`/`away`/`draw` by
score comparison; settlement turns every pending wager on the match into
`won` exactly when its selection equals the result and into `lost`
otherwise, leaves other wagers untouched, and each owner's balance grows by
exactly the total potential payout of their winning wagers (so the owner of
only losing wagers is unchanged). -/
theorem claim1_settlement_correct (st : DBState) (m : Match) (hs aw : Int)
    (hh : m.homeScore = some hs) (ha : m.awayScore = some aw) :
    (hs > aw → computeResult hs aw = "home") ∧
    (hs < aw → computeResult hs aw = "away") ∧
    (hs = aw → computeResult hs aw = "draw") ∧
    (settleOneMatch noFail st m).1.bets =
      st.bets.map (settleBetStatus m.apiID (computeResult hs aw)) ∧
    (∀ b ∈ st.bets, b.status = "pending" → b.matchID = m.apiID →
      (b.betType = computeResult hs aw →
        (settleBetStatus m.apiID (computeResult hs aw) b).status = "won") ∧
      (b.betType ≠ computeResult hs aw →
        (settleBetStatus m.apiID (computeResult hs aw) b).status = "lost")) ∧
    (∀ b : Bet, b.status ≠ "pending" ∨ b.matchID ≠ m.apiID →
      settleBetStatus m.apiID (computeResult hs aw) b = b) ∧
    (settleOneMatch noFail st m).1.users =
      st.users.map
        (fun u => { u with money := u.money + winTotal st.bets m.apiID (computeResult hs aw) u.id }) ∧
    (∀ uid : String,
      (∀ b ∈ st.bets, b.matchID = m.apiID → b.status = "pending" →
        b.betType = computeResult hs aw → b.userID ≠ uid) →
      winTotal st.bets m.apiID (computeResult hs aw) uid = 0) := by
  have key : settleOneMatch noFail st m =
      (UpdateMatchCalculated
        { st with
          bets := st.bets.map (settleBetStatus m.apiID (computeResult hs aw))
          users := st.users.map
            (fun u => { u with money := u.money + winTotal st.bets m.apiID (computeResult hs aw) u.id }) }
        m.apiID (computeResult hs aw), some (computeResult hs aw)) := by
    unfold settleOneMatch
    rw [hh, ha]
    simp only [UpdateBets_noFail]
  refine ⟨?_, ?_, ?_, ?_, ?_, ?_, ?_, ?_⟩
  · intro h; simp [computeResult, h]
  · intro h; simp [computeResult, h, asymm h]
  · intro h; simp [computeResult, h]
  · rw [key, UpdateMatchCalculated_bets]
  · intro b _ hb hmid
    have hgd : (b.matchID == m.apiID && b.status == "pending") = true := by
      simp [hb, hmid]
    constructor
    · intro ht; simp [settleBetStatus, hgd, ht]
    · intro ht
      have : (b.betType == computeResult hs aw) = false := beq_eq_false_iff_ne.mpr ht
      simp [settleBetStatus, hgd, this]
  · intro b h
    have hgd : (b.matchID == m.apiID && b.status == "pending") = false := by
      rcases h with h | h
      · simp [beq_eq_false_iff_ne.mpr h]
      · simp [beq_eq_false_iff_ne.mpr h]
    simp [settleBetStatus, hgd]
  · rw [key, UpdateMatchCalculated_users]
  · intro uid h
    have hnil : (winnersOf st.bets m.apiID (computeResult hs aw)).filter
        (fun w => w.1 == uid) = [] := by
      rw [List.filter_eq_nil_iff]
      rintro ⟨wuid, wamt⟩ hw
      simp only [winnersOf, List.mem_map, List.mem_filter] at hw
      obtain ⟨b, ⟨hbmem, hP⟩, heq⟩ := hw
      simp only [Bool.and_eq_true, beq_iff_eq] at hP
      obtain ⟨⟨h1, h2⟩, h3⟩ := hP
      have huser : b.userID ≠ uid := h b hbmem h1 h2 h3
      have : wuid = b.userID := by
        have := congrArg Prod.fst heq; simpa using this.symm
      simp [this, beq_eq_false_iff_ne.mpr huser]
    simp [winTotal, creditSum, hnil]

/-- Witness for C1 at the 2–1 match with a winning `home` wager by alice
and a losing `draw` wager by bob: balances move exactly by the winning
totals. -/
theorem claim1_settlement_correct_witness :
    (settleOneMatch noFail w1State w1Match).1.users =
      w1State.users.map
        (fun u => { u with money := u.money + winTotal w1State.bets w1Match.apiID (computeResult 2 1) u.id }) :=
  (claim1_settlement_correct w1State w1Match 2 1 rfl rfl).2.2.2.2.2.2.1

/-- C2: if the balance-credit step of the settlement transaction fails,
the whole transaction errors out and nothing changes: the store (wager
statuses, balances, match rows) is left exactly as it was, the match is
not marked calculated, and it remains in the settlement candidate set,
eligible for retry. -/
theorem claim2_settlement_atomic (f : String → ℚ → Bool) (st : DBState) (m : Match)
    (hs aw : Int) (hh : m.homeScore = some hs) (ha : m.awayScore = some aw)
    (herr : creditAll f st.users (winnersOf st.bets m.apiID (computeResult hs aw)) =
      Except.error ()) :
    UpdateBetsStatusAndUserMoney f st m.apiID (computeResult hs aw) = Except.error () ∧
    (settleOneMatch f st m).1 = st ∧
    (settleOneMatch f st m).2 = none ∧
    (m ∈ st.matchRows → candMatch m = true →
      m ∈ GetCompletedUncalculatedMatches (settleOneMatch f st m).1) := by
  have hupd : UpdateBetsStatusAndUserMoney f st m.apiID (computeResult hs aw) =
      Except.error () := by
    unfold UpdateBetsStatusAndUserMoney
    rw [herr]
  have hone : settleOneMatch f st m = (st, none) := by
    unfold settleOneMatch
    rw [hh, ha]
    simp only [hupd]
  refine ⟨hupd, by rw [hone], by rw [hone], ?_⟩
  intro h1 h2
  rw [hone]
  exact List.mem_filter.mpr ⟨h1, h2⟩

/-- Witness for C2: failing alice's credit write rolls the whole
settlement of the 2–1 match back. -/
theorem claim2_settlement_atomic_witness :
    (settleOneMatch failAlice w1State w1Match).1 = w1State :=
  (claim2_settlement_atomic failAlice w1State w1Match 2 1 rfl rfl rfl).2.1

/-! ### Shape lemmas for the settlement loop -/

theorem UpdateBets_ok_matchRows {f : String → ℚ → Bool} {st st' : DBState} {a r : String}
    (h : UpdateBetsStatusAndUserMoney f st a r = Except.ok st') :
    st'.matchRows = st.matchRows := by
  unfold UpdateBetsStatusAndUserMoney at h
  cases h2 : creditAll f st.users (winnersOf st.bets a r) <;> rw [h2] at h <;> simp at h
  rw [← h]

theorem UpdateBets_ok_bets {f : String → ℚ → Bool} {st st' : DBState} {a r : String}
    (h : UpdateBetsStatusAndUserMoney f st a r = Except.ok st') :
    st'.bets = st.bets.map (settleBetStatus a r) := by
  unfold UpdateBetsStatusAndUserMoney at h
  cases h2 : creditAll f st.users (winnersOf st.bets a r) <;> rw [h2] at h <;> simp at h
  rw [← h]

/-- `settleOneMatch` either leaves the store untouched (nil score or a
failed transaction) or commits the transaction and then marks the match
calculated. -/
theorem settleOneMatch_cases (f : String → ℚ → Bool) (s : DBState) (c : Match) :
    (settleOneMatch f s c).1 = s ∨
    ∃ hs aw st', c.homeScore = some hs ∧ c.awayScore = some aw ∧
      UpdateBetsStatusAndUserMoney f s c.apiID (computeResult hs aw) = Except.ok st' ∧
      (settleOneMatch f s c).1 = UpdateMatchCalculated st' c.apiID (computeResult hs aw) := by
  unfold settleOneMatch
  cases hh : c.homeScore with
  | none => left; rfl
  | some hs =>
    cases ha : c.awayScore with
    | none => left; rfl
    | some aw =>
      cases hU : UpdateBetsStatusAndUserMoney f s c.apiID (computeResult hs aw) with
      | error e => left; simp [hU]
      | ok st' =>
        right
        exact ⟨hs, aw, st', rfl, rfl, hU, by simp [hU]⟩

/-- Every row after one settlement step descends from a row of the input
state with the same identity, completion flag and scores, and with the
calculated flag only ever turning on. -/
theorem settleOneMatch_row_shape (f : String → ℚ → Bool) (s : DBState) (c : Match) :
    ∀ r' ∈ (settleOneMatch f s c).1.matchRows, ∃ r ∈ s.matchRows,
      r'.apiID = r.apiID ∧ r'.completed = r.completed ∧
      r'.homeScore = r.homeScore ∧ r'.awayScore = r.awayScore ∧
      (r.calculated = true → r'.calculated = true) := by
  intro r' hr'
  rcases settleOneMatch_cases f s c with hc | ⟨hs, aw, st', _, _, hU, hc⟩
  · rw [hc] at hr'
    exact ⟨r', hr', rfl, rfl, rfl, rfl, fun h => h⟩
  · rw [hc] at hr'
    unfold UpdateMatchCalculated at hr'
    rw [UpdateBets_ok_matchRows hU] at hr'
    simp only [List.mem_map] at hr'
    obtain ⟨r, hr, hrr⟩ := hr'
    refine ⟨r, hr, ?_⟩
    by_cases hg : r.apiID = c.apiID
    · rw [if_pos (beq_iff_eq.mpr hg)] at hrr
      rw [← hrr]
      exact ⟨rfl, rfl, rfl, rfl, fun _ => rfl⟩
    · rw [if_neg (by simp [hg])] at hrr
      rw [← hrr]
      exact ⟨rfl, rfl, rfl, rfl, fun h => h⟩

theorem settleLoop_cons (f : String → ℚ → Bool) (s : DBState) (c : Match) (rest : List Match) :
    settleLoop f s (c :: rest) = settleLoop f (settleOneMatch f s c).1 rest := rfl

/-- `settleOneMatch_row_shape` lifted through the whole settlement loop. -/
theorem settleLoop_row_shape (f : String → ℚ → Bool) (cands : List Match) :
    ∀ (s : DBState), ∀ r' ∈ (settleLoop f s cands).matchRows, ∃ r ∈ s.matchRows,
      r'.apiID = r.apiID ∧ r'.completed = r.completed ∧
      r'.homeScore = r.homeScore ∧ r'.awayScore = r.awayScore ∧
      (r.calculated = true → r'.calculated = true) := by
  induction cands with
  | nil => intro s r' hr'; exact ⟨r', hr', rfl, rfl, rfl, rfl, fun h => h⟩
  | cons c rest ih =>
    intro s r' hr'
    rw [settleLoop_cons] at hr'
    obtain ⟨r1, hr1, e1, e2, e3, e4, e5⟩ := ih (settleOneMatch f s c).1 r' hr'
    obtain ⟨r, hr, d1, d2, d3, d4, d5⟩ := settleOneMatch_row_shape f s c r1 hr1
    exact ⟨r, hr, e1.trans d1, e2.trans d2, e3.trans d3, e4.trans d4, fun h => e5 (d5 h)⟩

/-- Once every row of some fixture is calculated, the rest of the loop
keeps it that way. -/
theorem settleLoop_calc_stable (f : String → ℚ → Bool) (cands : List Match) (s : DBState)
    (x : String) (hall : ∀ r ∈ s.matchRows, r.apiID = x → r.calculated = true) :
    ∀ r' ∈ (settleLoop f s cands).matchRows, r'.apiID = x → r'.calculated = true := by
  intro r' hr' hid
  obtain ⟨r, hr, e1, _, _, _, e5⟩ := settleLoop_row_shape f cands s r' hr'
  exact e5 (hall r hr (e1 ▸ hid))

/-- Under the no-fault oracle, settling a candidate with both scores
present marks every row of that fixture calculated. -/
theorem settleOneMatch_marks (s : DBState) (c : Match) (hs aw : Int)
    (hh : c.homeScore = some hs) (ha : c.awayScore = some aw) :
    ∀ r' ∈ (settleOneMatch noFail s c).1.matchRows, r'.apiID = c.apiID →
      r'.calculated = true := by
  intro r' hr' hid
  have hone : (settleOneMatch noFail s c).1 =
      UpdateMatchCalculated
        { s with
          bets := s.bets.map (settleBetStatus c.apiID (computeResult hs aw))
          users := s.users.map
            (fun u => { u with money := u.money + winTotal s.bets c.apiID (computeResult hs aw) u.id }) }
        c.apiID (computeResult hs aw) := by
    unfold settleOneMatch
    rw [hh, ha]
    simp only [UpdateBets_noFail]
  rw [hone] at hr'
  unfold UpdateMatchCalculated at hr'
  simp only [List.mem_map] at hr'
  obtain ⟨r, _, hrr⟩ := hr'
  by_cases hg : r.apiID = c.apiID
  · rw [if_pos (beq_iff_eq.mpr hg)] at hrr
    rw [← hrr]
  · rw [if_neg (by simp [hg])] at hrr
    rw [← hrr] at hid
    exact absurd hid hg

/-- A no-fault settlement pass marks every candidate's fixture: after the
loop, every row sharing a candidate's `api_id` is calculated. -/
theorem settleLoop_marks (cands : List Match) :
    ∀ (s : DBState) (c : Match), c ∈ cands →
      ∀ (hs aw : Int), c.homeScore = some hs → c.awayScore = some aw →
      ∀ r' ∈ (settleLoop noFail s cands).matchRows, r'.apiID = c.apiID →
        r'.calculated = true := by
  induction cands with
  | nil => intro s c hc; exact absurd hc (List.not_mem_nil c)
  | cons a rest ih =>
    intro s c hc hs aw hh ha r' hr' hid
    rw [settleLoop_cons] at hr'
    rcases List.mem_cons.mp hc with hca | hcr
    · subst hca
      exact settleLoop_calc_stable noFail rest (settleOneMatch noFail s c).1 c.apiID
        (fun r hr hrid => settleOneMatch_marks s c hs aw hh ha r hr hrid) r' hr' hid
    · exact ih (settleOneMatch noFail s a).1 c hcr hs aw hh ha r' hr' hid

/-- C3: settlement is idempotent — a second no-fault `Settle()` invocation
immediately after a first one changes nothing: no wager status, no user
balance, no `calculated` flag, no `result`. -/
theorem claim3_settle_idempotent (st : DBState) :
    settleState noFail (settleState noFail st) = settleState noFail st := by
  have hnone : GetCompletedUncalculatedMatches (settleState noFail st) = [] := by
    unfold GetCompletedUncalculatedMatches
    rw [List.filter_eq_nil_iff]
    intro r' hr' hcand
    have hsplit := hcand
    unfold candMatch at hsplit
    simp only [Bool.and_eq_true, Bool.not_eq_eq_eq_not, Bool.not_true] at hsplit
    obtain ⟨⟨⟨hcomp, hcalc⟩, hsh⟩, hsa⟩ := hsplit
    obtain ⟨r, hr, e1, e2, e3, e4, e5⟩ :=
      settleLoop_row_shape noFail (GetCompletedUncalculatedMatches st) st r' hr'
    have hrcalc : r.calculated = false := by
      cases h : r.calculated
      · rfl
      · rw [e5 h] at hcalc; exact absurd hcalc (by simp)
    have hrcand : candMatch r = true := by
      unfold candMatch
      rw [← e2, ← e3, ← e4, hrcalc, hcomp, hsh, hsa]
      rfl
    have hrmem : r ∈ GetCompletedUncalculatedMatches st :=
      List.mem_filter.mpr ⟨hr, hrcand⟩
    have hsOK : scoreOK r.homeScore = true := by rw [← e3]; exact hsh
    have haOK : scoreOK r.awayScore = true := by rw [← e4]; exact hsa
    obtain ⟨hsv, hhv⟩ : ∃ v, r.homeScore = some v := by
      cases hv : r.homeScore
      · rw [hv] at hsOK; exact absurd hsOK (by simp [scoreOK])
      · exact ⟨_, rfl⟩
    obtain ⟨hav, hva⟩ : ∃ v, r.awayScore = some v := by
      cases hv : r.awayScore
      · rw [hv] at haOK; exact absurd haOK (by simp [scoreOK])
      · exact ⟨_, rfl⟩
    have := settleLoop_marks (GetCompletedUncalculatedMatches st) st r hrmem hsv hav hhv hva
      r' hr' (e1 ▸ rfl)
    rw [this] at hcalc
    exact absurd hcalc (by simp)
  conv_lhs => rw [settleState, hnone]
  rfl

/-- C4: the merge-update writes each nullable field only when the incoming
value is non-null — null incoming values leave the stored value untouched,
non-null incoming values overwrite unconditionally — and the store applies
exactly this per-row update to the row with the given `api_id`. -/
theorem claim4_merge_null_skip (st : DBState) (apiID : String) (inc stored : Match) :
    (inc.homeOdds = none → (applyMatchUpdate inc stored).homeOdds = stored.homeOdds) ∧
    (inc.drawOdds = none → (applyMatchUpdate inc stored).drawOdds = stored.drawOdds) ∧
    (inc.awayOdds = none → (applyMatchUpdate inc stored).awayOdds = stored.awayOdds) ∧
    (inc.homeScore = none → (applyMatchUpdate inc stored).homeScore = stored.homeScore) ∧
    (inc.awayScore = none → (applyMatchUpdate inc stored).awayScore = stored.awayScore) ∧
    (∀ v : ℚ, inc.homeOdds = some v → (applyMatchUpdate inc stored).homeOdds = some v) ∧
    (∀ v : ℚ, inc.drawOdds = some v → (applyMatchUpdate inc stored).drawOdds = some v) ∧
    (∀ v : ℚ, inc.awayOdds = some v → (applyMatchUpdate inc stored).awayOdds = some v) ∧
    (∀ v : Int, inc.homeScore = some v → (applyMatchUpdate inc stored).homeScore = some v) ∧
    (∀ v : Int, inc.awayScore = some v → (applyMatchUpdate inc stored).awayScore = some v) ∧
    (inc.homeOdds = none ∧ inc.drawOdds = none ∧ inc.awayOdds = none →
      (applyMatchUpdate inc stored).homeOdds = stored.homeOdds ∧
      (applyMatchUpdate inc stored).drawOdds = stored.drawOdds ∧
      (applyMatchUpdate inc stored).awayOdds = stored.awayOdds) ∧
    UpdateMatchByAPIID st apiID inc =
      { st with matchRows :=
          st.matchRows.map (fun m => if m.apiID == apiID then applyMatchUpdate inc m else m) } := by
  refine ⟨fun h => by simp [applyMatchUpdate, h], fun h => by simp [applyMatchUpdate, h],
    fun h => by simp [applyMatchUpdate, h], fun h => by simp [applyMatchUpdate, h],
    fun h => by simp [applyMatchUpdate, h],
    fun v h => by simp [applyMatchUpdate, h], fun v h => by simp [applyMatchUpdate, h],
    fun v h => by simp [applyMatchUpdate, h], fun v h => by simp [applyMatchUpdate, h],
    fun v h => by simp [applyMatchUpdate, h],
    fun h => ⟨by simp [applyMatchUpdate, h.1], by simp [applyMatchUpdate, h.2.1],
      by simp [applyMatchUpdate, h.2.2]⟩,
    rfl⟩

/-- Witness for C4: an incoming fact with home odds `7` and null draw odds
overwrites stored home odds and leaves stored draw odds unchanged. -/
theorem claim4_merge_null_skip_witness :
    (applyMatchUpdate w4Incoming w1Match).homeOdds = some 7 ∧
    (applyMatchUpdate w4Incoming w1Match).drawOdds = w1Match.drawOdds :=
  ⟨(claim4_merge_null_skip w1State "m1" w4Incoming w1Match).2.2.2.2.2.1 7 rfl,
   (claim4_merge_null_skip w1State "m1" w4Incoming w1Match).2.1 rfl⟩

/-! ### Field lemmas for the normalizer -/

theorem oddsOutcomeStep_frame (ev : OddsAPIEvent) (acc : Match) (o : Outcome) :
    (oddsOutcomeStep ev acc o).apiID = acc.apiID ∧
    (oddsOutcomeStep ev acc o).completed = acc.completed ∧
    (oddsOutcomeStep ev acc o).calculated = acc.calculated ∧
    (oddsOutcomeStep ev acc o).result = acc.result ∧
    (oddsOutcomeStep ev acc o).homeScore = acc.homeScore ∧
    (oddsOutcomeStep ev acc o).awayScore = acc.awayScore := by
  unfold oddsOutcomeStep
  split
  · exact ⟨rfl, rfl, rfl, rfl, rfl, rfl⟩
  split
  · exact ⟨rfl, rfl, rfl, rfl, rfl, rfl⟩
  split
  · exact ⟨rfl, rfl, rfl, rfl, rfl, rfl⟩
  · exact ⟨rfl, rfl, rfl, rfl, rfl, rfl⟩

theorem oddsFold_frame (ev : OddsAPIEvent) (outs : List Outcome) :
    ∀ acc : Match,
      (outs.foldl (oddsOutcomeStep ev) acc).apiID = acc.apiID ∧
      (outs.foldl (oddsOutcomeStep ev) acc).completed = acc.completed ∧
      (outs.foldl (oddsOutcomeStep ev) acc).calculated = acc.calculated ∧
      (outs.foldl (oddsOutcomeStep ev) acc).result = acc.result ∧
      (outs.foldl (oddsOutcomeStep ev) acc).homeScore = acc.homeScore ∧
      (outs.foldl (oddsOutcomeStep ev) acc).awayScore = acc.awayScore := by
  induction outs with
  | nil => intro acc; exact ⟨rfl, rfl, rfl, rfl, rfl, rfl⟩
  | cons o rest ih =>
    intro acc
    rw [List.foldl_cons]
    obtain ⟨i1, i2, i3, i4, i5, i6⟩ := ih (oddsOutcomeStep ev acc o)
    obtain ⟨s1, s2, s3, s4, s5, s6⟩ := oddsOutcomeStep_frame ev acc o
    exact ⟨i1.trans s1, i2.trans s2, i3.trans s3, i4.trans s4, i5.trans s5, i6.trans s6⟩

/-- The fields of an odds-flavored fact that the outcome loop never touches:
identity from the feed record, `completed`/`calculated` hard-coded `false`,
no result, no scores. -/
theorem processOddsEvent_fields (ev : OddsAPIEvent) :
    (processOddsEvent ev).apiID = ev.id ∧
    (processOddsEvent ev).completed = false ∧
    (processOddsEvent ev).calculated = false ∧
    (processOddsEvent ev).result = none ∧
    (processOddsEvent ev).homeScore = none ∧
    (processOddsEvent ev).awayScore = none := by
  unfold processOddsEvent
  cases ev.bookmakers with
  | nil => exact ⟨rfl, rfl, rfl, rfl, rfl, rfl⟩
  | cons bk tl =>
    dsimp only
    cases bk.markets with
    | nil => exact ⟨rfl, rfl, rfl, rfl, rfl, rfl⟩
    | cons mkt tl2 => exact oddsFold_frame ev mkt.outcomes _

/-- C5 counterexample: odds-sync merging an odds fact into the stored,
already-completed match `cm5` resets its `completed` flag to `false`
(the merge always writes `completed`, and an odds fact always carries
`completed = false`) — the flag is not left unchanged. -/
theorem claim5_cex :
    cm5.completed = true ∧
    (oddsSyncOne cst5 cev5).1.matchRows = [{ cm5 with commenceTime := 9, completed := false }] :=
  ⟨rfl, rfl⟩

/-- When the odds pipeline finds a stored match, its step is exactly a
merge-update with an incoming fact whose `completed` field is `false`. -/
theorem oddsSyncOne_found {st : DBState} {ev : OddsAPIEvent} {x : Match}
    (hx : GetMatchByAPIID st ev.id = some x) :
    ∃ inc : Match, inc.completed = false ∧
      (oddsSyncOne st ev).1 = UpdateMatchByAPIID st ev.id inc := by
  unfold oddsSyncOne
  dsimp only
  rw [(processOddsEvent_fields ev).1, hx]
  dsimp only
  refine ⟨_, ?_, rfl⟩
  exact (processOddsEvent_fields ev).2.1

/-- When the scores pipeline finds a stored match, its step is exactly a
merge-update with an incoming fact carrying the feed's `completed` flag. -/
theorem scoresSyncOne_found {st : DBState} {sev : ScoresAPIEvent} {y : Match}
    (hy : GetMatchByAPIID st sev.id = some y) :
    ∃ inc : Match, inc.completed = sev.completed ∧
      (scoresSyncOne st sev).1 = UpdateMatchByAPIID st sev.id inc := by
  unfold scoresSyncOne
  dsimp only
  have hpid : (processScoreEvent sev).apiID = sev.id := rfl
  rw [hpid, hy]
  dsimp only
  refine ⟨_, ?_, rfl⟩
  rfl

theorem applyMatchUpdate_completed (inc r : Match) :
    (applyMatchUpdate inc r).completed = inc.completed := rfl

/-- C5 as amended: merging an odds-flavored fact into a stored match writes
the fact's `completed` field — which the odds normalizer always sets to
`false` — so the merge resets `completed` to `false` rather than leaving it
unchanged; a score-flavored fact sets `completed` to the incoming feed
value. -/
theorem claim5_completed_flag (st : DBState) (ev : OddsAPIEvent) (x : Match)
    (hx : GetMatchByAPIID st ev.id = some x) :
    (∀ m' ∈ (oddsSyncOne st ev).1.matchRows, m'.apiID = ev.id → m'.completed = false) ∧
    (∃ m' ∈ (oddsSyncOne st ev).1.matchRows, m'.apiID = ev.id ∧ m'.completed = false) ∧
    (∀ (sev : ScoresAPIEvent) (y : Match), GetMatchByAPIID st sev.id = some y →
      ∀ m' ∈ (scoresSyncOne st sev).1.matchRows, m'.apiID = sev.id →
        m'.completed = sev.completed) := by
  obtain ⟨inc, hincc, heq⟩ := oddsSyncOne_found hx
  have hall : ∀ m' ∈ (oddsSyncOne st ev).1.matchRows, m'.apiID = ev.id → m'.completed = false := by
    intro m' hm' hmid
    rw [heq] at hm'
    unfold UpdateMatchByAPIID at hm'
    simp only [List.mem_map] at hm'
    obtain ⟨r, hr, hrr⟩ := hm'
    by_cases hg : r.apiID = ev.id
    · rw [if_pos (beq_iff_eq.mpr hg)] at hrr
      rw [← hrr, applyMatchUpdate_completed]
      exact hincc
    · rw [if_neg (by simp [hg])] at hrr
      rw [← hrr] at hmid
      exact absurd hmid hg
  refine ⟨hall, ?_, ?_⟩
  · have hx' : st.matchRows.find? (fun m => m.apiID == ev.id) = some x := hx
    have hxmem : x ∈ st.matchRows := List.mem_of_find?_eq_some hx'
    have hxid : x.apiID = ev.id := beq_iff_eq.mp (by simpa using List.find?_some hx')
    have hmem : applyMatchUpdate inc x ∈ (oddsSyncOne st ev).1.matchRows := by
      rw [heq]
      unfold UpdateMatchByAPIID
      simp only [List.mem_map]
      exact ⟨x, hxmem, by rw [if_pos (beq_iff_eq.mpr hxid)]⟩
    refine ⟨applyMatchUpdate inc x, hmem, ?_, ?_⟩
    · rw [applyMatchUpdate_apiID]; exact hxid
    · rw [applyMatchUpdate_completed]; exact hincc
  · intro sev y hy m' hm' hmid
    obtain ⟨inc2, hinc2, heq2⟩ := scoresSyncOne_found hy
    rw [heq2] at hm'
    unfold UpdateMatchByAPIID at hm'
    simp only [List.mem_map] at hm'
    obtain ⟨r, hr, hrr⟩ := hm'
    by_cases hg : r.apiID = sev.id
    · rw [if_pos (beq_iff_eq.mpr hg)] at hrr
      rw [← hrr, applyMatchUpdate_completed]
      exact hinc2
    · rw [if_neg (by simp [hg])] at hrr
      rw [← hrr] at hmid
      exact absurd hmid hg

/-- Witness for C5's amended statement on the concrete store `cst5`. -/
theorem claim5_completed_flag_witness :
    ∃ m' ∈ (oddsSyncOne cst5 cev5).1.matchRows, m'.apiID = cev5.id ∧ m'.completed = false :=
  (claim5_completed_flag cst5 cev5 cm5 rfl).2.1

/-! ### The settlement candidate set -/

/-- C6 counterexample: the row `cm6` satisfies the claimed candidate
predicate (completed, uncalculated, both scores non-null) yet the
candidate query selects nothing, because its home score holds the non-NULL
absent-score sentinel `-1`, which the query additionally excludes. -/
theorem claim6_cex :
    specCandidate cm6 = true ∧ GetCompletedUncalculatedMatches cst6 = [] := by
  exact ⟨rfl, rfl⟩

/-- A row whose fixture id differs from every settled candidate's id
survives one settlement step unchanged. -/
theorem settleOneMatch_untouched (f : String → ℚ → Bool) (s : DBState) (c m : Match)
    (hm : m ∈ s.matchRows) (hne : m.apiID ≠ c.apiID) :
    m ∈ (settleOneMatch f s c).1.matchRows := by
  rcases settleOneMatch_cases f s c with hc | ⟨hs, aw, st', _, _, hU, hc⟩
  · rw [hc]; exact hm
  · rw [hc]
    unfold UpdateMatchCalculated
    rw [UpdateBets_ok_matchRows hU]
    simp only [List.mem_map]
    exact ⟨m, hm, by rw [if_neg (by simp [hne])]⟩

/-- `settleOneMatch_untouched` lifted through the settlement loop. -/
theorem settleLoop_untouched (f : String → ℚ → Bool) (cands : List Match) :
    ∀ (s : DBState) (m : Match), m ∈ s.matchRows → (∀ c ∈ cands, m.apiID ≠ c.apiID) →
      m ∈ (settleLoop f s cands).matchRows := by
  induction cands with
  | nil => intro s m hm _; exact hm
  | cons c rest ih =>
    intro s m hm hne
    rw [settleLoop_cons]
    exact ih (settleOneMatch f s c).1 m
      (settleOneMatch_untouched f s c m hm (hne c (List.mem_cons_self c rest)))
      (fun d hd => hne d (List.mem_cons_of_mem c hd))

/-- C6 as amended: the settler's candidate set is exactly the stored
matches that satisfy the claimed predicate (completed, uncalculated, both
scores non-null) *and* additionally carry neither score equal to the
absent-score sentinel `-1`; in particular a match with a NULL home score is
never selected and (under the schema's unique `api_id`) never settled. -/
theorem claim6_candidate_set (st : DBState) :
    GetCompletedUncalculatedMatches st =
      st.matchRows.filter
        (fun m => specCandidate m && m.homeScore != some (-1) && m.awayScore != some (-1)) ∧
    (∀ m ∈ st.matchRows, m.homeScore = none → m ∉ GetCompletedUncalculatedMatches st) ∧
    (∀ f : String → ℚ → Bool, ∀ m ∈ st.matchRows, m.homeScore = none → UniqueIDs st →
      m ∈ (settleState f st).matchRows) := by
  refine ⟨?_, ?_, ?_⟩
  · unfold GetCompletedUncalculatedMatches
    apply List.filter_congr
    intro m _
    cases hh : m.homeScore <;> cases ha : m.awayScore <;>
      simp [candMatch, specCandidate, scoreOK, hh, ha, bne]
  · intro m hm hnull hmem
    have := (List.mem_filter.mp hmem).2
    unfold candMatch at this
    rw [hnull] at this
    simp [scoreOK] at this
  · intro f m hm hnull hU
    unfold settleState
    apply settleLoop_untouched f (GetCompletedUncalculatedMatches st) st m hm
    intro c hc hid
    have hcmem : c ∈ st.matchRows := (List.mem_filter.mp hc).1
    have hcand : candMatch c = true := (List.mem_filter.mp hc).2
    have : m = c := List.inj_on_of_nodup_map hU hm hcmem hid
    subst this
    unfold candMatch at hcand
    rw [hnull] at hcand
    simp [scoreOK] at hcand

/-- Witness for C6's amended statement: the NULL-scored row of `cst6null`
is untouched by a settlement pass. -/
theorem claim6_candidate_set_witness :
    cm6null ∈ (settleState noFail cst6null).matchRows :=
  (claim6_candidate_set cst6null).2.2 noFail cm6null (List.mem_singleton.mpr rfl) rfl
    (by unfold UniqueIDs; decide)

/-! ### Create semantics of the two sync pipelines -/

theorem UpsertMatch_insert {st : DBState} {m : Match}
    (h : GetMatchByAPIID st m.apiID = none) :
    UpsertMatch st m = { st with matchRows := st.matchRows ++ [insertRow m] } := by
  unfold UpsertMatch
  rw [h]

theorem oddsSyncOne_notfound {st : DBState} {ev : OddsAPIEvent}
    (h : GetMatchByAPIID st ev.id = none) :
    oddsSyncOne st ev =
      if (processOddsEvent ev).homeOdds.isNone || (processOddsEvent ev).drawOdds.isNone ||
          (processOddsEvent ev).awayOdds.isNone then (st, SyncTag.skipped)
      else (UpsertMatch st (processOddsEvent ev), SyncTag.created) := by
  unfold oddsSyncOne
  dsimp only
  rw [(processOddsEvent_fields ev).1, h]

theorem scoresSyncOne_notfound {st : DBState} {sev : ScoresAPIEvent}
    (h : GetMatchByAPIID st sev.id = none) :
    scoresSyncOne st sev =
      ({ st with matchRows := st.matchRows ++
          [insertRow { processScoreEvent sev with
            homeOdds := none, drawOdds := none, awayOdds := none }] }, SyncTag.created) := by
  unfold scoresSyncOne
  dsimp only
  have hpid : (processScoreEvent sev).apiID = sev.id := rfl
  rw [hpid, h]
  dsimp only
  rw [UpsertMatch_insert (show GetMatchByAPIID st _ = none from h)]

/-- C8: on a fixture with no stored match, the odds pipeline persists the
new match only when all three odds are present and counts it skipped
otherwise (leaving the store unchanged); the scores pipeline persists the
new match with all three odds columns NULL. -/
theorem claim8_create_semantics (st : DBState) (oev : OddsAPIEvent) (sev : ScoresAPIEvent)
    (ho : GetMatchByAPIID st oev.id = none) (hsc : GetMatchByAPIID st sev.id = none) :
    ((processOddsEvent oev).homeOdds ≠ none → (processOddsEvent oev).drawOdds ≠ none →
      (processOddsEvent oev).awayOdds ≠ none →
      (oddsSyncOne st oev).2 = SyncTag.created ∧
      (oddsSyncOne st oev).1.matchRows = st.matchRows ++ [insertRow (processOddsEvent oev)]) ∧
    (((processOddsEvent oev).homeOdds = none ∨ (processOddsEvent oev).drawOdds = none ∨
      (processOddsEvent oev).awayOdds = none) →
      (oddsSyncOne st oev).2 = SyncTag.skipped ∧ (oddsSyncOne st oev).1 = st) ∧
    ((scoresSyncOne st sev).2 = SyncTag.created ∧
      ∃ row : Match, (scoresSyncOne st sev).1.matchRows = st.matchRows ++ [row] ∧
        row.apiID = sev.id ∧ row.homeOdds = none ∧ row.drawOdds = none ∧
        row.awayOdds = none) := by
  refine ⟨?_, ?_, ?_⟩
  · intro h1 h2 h3
    rw [oddsSyncOne_notfound ho]
    have e1 : (processOddsEvent oev).homeOdds.isNone = false := by
      cases hv : (processOddsEvent oev).homeOdds with
      | none => exact absurd hv h1
      | some v => rfl
    have e2 : (processOddsEvent oev).drawOdds.isNone = false := by
      cases hv : (processOddsEvent oev).drawOdds with
      | none => exact absurd hv h2
      | some v => rfl
    have e3 : (processOddsEvent oev).awayOdds.isNone = false := by
      cases hv : (processOddsEvent oev).awayOdds with
      | none => exact absurd hv h3
      | some v => rfl
    rw [if_neg (by simp [e1, e2, e3])]
    refine ⟨rfl, ?_⟩
    rw [UpsertMatch_insert (show GetMatchByAPIID st (processOddsEvent oev).apiID = none by
      rw [(processOddsEvent_fields oev).1]; exact ho)]
  · intro h
    rw [oddsSyncOne_notfound ho]
    have hcond : ((processOddsEvent oev).homeOdds.isNone || (processOddsEvent oev).drawOdds.isNone ||
        (processOddsEvent oev).awayOdds.isNone) = true := by
      rcases h with h | h | h <;> simp [h]
    rw [if_pos (by simp [hcond])]
    exact ⟨rfl, rfl⟩
  · rw [scoresSyncOne_notfound hsc]
    exact ⟨rfl,
      insertRow { processScoreEvent sev with homeOdds := none, drawOdds := none, awayOdds := none },
      rfl, rfl, rfl, rfl, rfl⟩

/-- Witness for C8: a fully-quoted odds record creates a match in an empty
store, and a scores record creates one too. -/
theorem claim8_create_semantics_witness :
    (oddsSyncOne emptyState oevW).2 = SyncTag.created ∧
    (scoresSyncOne emptyState sevW).2 = SyncTag.created :=
  ⟨((claim8_create_semantics emptyState oevW sevW rfl rfl).1
      (by decide) (by decide) (by decide)).1,
   (claim8_create_semantics emptyState oevW sevW rfl rfl).2.2.1⟩

/-! ### Batch decoding -/

/-- One undecodable record fails the whole batch decode. -/
theorem decodeOddsBatch_bad (raw : List RawOddsRecord) (r : RawOddsRecord)
    (hr : r ∈ raw) (hbad : r.commenceTime = none) :
    decodeOddsBatch raw = none := by
  induction raw with
  | nil => exact absurd hr (List.not_mem_nil r)
  | cons a rest ih =>
    rcases List.mem_cons.mp hr with ha | ha
    · subst ha
      unfold decodeOddsBatch decodeOddsRecord
      rw [hbad]
      rfl
    · unfold decodeOddsBatch
      cases hd : decodeOddsRecord a with
      | none => rfl
      | some ev => rw [ih ha]; rfl

/-- C9 counterexample: a batch of nine valid records and one record with
an unparseable timestamp does not yield nine upserts and one skip — the
whole fetch decode fails, the handler reports a hard error, and the store
is untouched (zero upserts). -/
theorem claim9_cex :
    (cBatch9.filter (fun q => q.commenceTime.isNone)).length = 1 ∧
    (cBatch9.filter (fun q => !q.commenceTime.isNone)).length = 9 ∧
    (oddsSyncHandler emptyState cBatch9).1 = emptyState ∧
    (oddsSyncHandler emptyState cBatch9).2 = Except.error "failed to decode response" :=
  ⟨rfl, rfl, rfl, rfl⟩

/-- C9 as amended: a record malformed at the decode stage (unparseable
timestamp) aborts the entire odds-sync batch: the handler returns the
decode error and upserts nothing, leaving the store unchanged — single-
record skipping does not apply to decode-level malformation. -/
theorem claim9_batch_failure (st : DBState) (raw : List RawOddsRecord)
    (r : RawOddsRecord) (hr : r ∈ raw) (hbad : r.commenceTime = none) :
    (oddsSyncHandler st raw).1 = st ∧
    (oddsSyncHandler st raw).2 = Except.error "failed to decode response" := by
  unfold oddsSyncHandler
  rw [decodeOddsBatch_bad raw r hr hbad]
  exact ⟨rfl, rfl⟩

/-- Witness for C9's amended statement on the concrete ten-record batch. -/
theorem claim9_batch_failure_witness :
    (oddsSyncHandler emptyState cBatch9).1 = emptyState :=
  (claim9_batch_failure emptyState cBatch9 badRaw (by decide) rfl).1

/-! ### The `-1` absent-score sentinel of the score normalizer -/

theorem atoi_empty : atoi "" = none := rfl

/-- The score fold over a single home-side entry. -/
theorem scoreFold_single (ev : ScoresAPIEvent) (str : String) :
    scoreFold ev.homeTeam ev.awayTeam [{ name := ev.homeTeam, score := str }] =
      (if str == "" then ((-1 : Int), (-1 : Int))
       else match atoi str with
         | some v => (v, (-1 : Int))
         | none => ((-1 : Int), (-1 : Int))) := by
  unfold scoreFold
  rw [List.foldl_cons, List.foldl_nil]
  dsimp only
  rw [if_pos (beq_self_eq_true ev.homeTeam)]

/-- C10: a score string that parses to the integer `-1` is reported by the
normalizer as an absent score — the produced fact is indistinguishable
from one with a missing or unparseable score — while any other parsed
integer (including `0` and other negatives) is reported as a present
score. -/
theorem claim10_sentinel_score (ev : ScoresAPIEvent) (s t : String)
    (hsc : ev.scores = [{ name := ev.homeTeam, score := s }]) :
    (atoi s = some (-1) →
      processScoreEvent ev = processScoreEvent { ev with scores := [] } ∧
      (atoi t = none →
        processScoreEvent ev =
          processScoreEvent { ev with scores := [{ name := ev.homeTeam, score := t }] })) ∧
    (∀ k : Int, atoi s = some k → k ≠ -1 →
      (processScoreEvent ev).homeScore = some k ∧
      (processScoreEvent ev).awayScore = none) := by
  constructor
  · intro hA
    have hne : s ≠ "" := by
      intro he; subst he; rw [atoi_empty] at hA; exact Option.noConfusion hA
    have hf : scoreFold ev.homeTeam ev.awayTeam ev.scores = (-1, -1) := by
      rw [hsc, scoreFold_single, if_neg (by simp [hne]), hA]
    constructor
    · unfold processScoreEvent
      dsimp only
      rw [hf]
      rfl
    · intro hT
      have hf2 : scoreFold ev.homeTeam ev.awayTeam
          [{ name := ev.homeTeam, score := t }] = (-1, -1) := by
        rw [scoreFold_single]
        by_cases ht : t = ""
        · rw [if_pos (by simp [ht])]
        · rw [if_neg (by simp [ht]), hT]
      unfold processScoreEvent
      dsimp only
      rw [hf, hf2]
  · intro k hA hk
    have hne : s ≠ "" := by
      intro he; subst he; rw [atoi_empty] at hA; exact Option.noConfusion hA
    have hf : scoreFold ev.homeTeam ev.awayTeam ev.scores = (k, -1) := by
      rw [hsc, scoreFold_single, if_neg (by simp [hne]), hA]
    constructor
    · unfold processScoreEvent
      dsimp only
      rw [hf]
      simp [beq_eq_false_iff_ne.mpr hk]
    · unfold processScoreEvent
      dsimp only
      rw [hf]
      rfl

/-- Witness for C10: the score string `"-1"` yields a fact identical to
one carrying no score entry at all. -/
theorem claim10_sentinel_score_witness :
    processScoreEvent sevMinus1 = processScoreEvent { sevMinus1 with scores := [] } :=
  ((claim10_sentinel_score sevMinus1 "-1" "x" rfl).1 (by decide)).1

/-! ### Preservation of the lifecycle invariant -/

theorem map_apiID_eq (l : List Match) (g : Match → Match)
    (hg : ∀ r, (g r).apiID = r.apiID) :
    (l.map g).map Match.apiID = l.map Match.apiID := by
  induction l with
  | nil => rfl
  | cons a rest ih => simp [hg, ih]

theorem updateGuard_frame (apiID : String) (inc r : Match) :
    (if r.apiID == apiID then applyMatchUpdate inc r else r).apiID = r.apiID ∧
    (if r.apiID == apiID then applyMatchUpdate inc r else r).calculated = r.calculated ∧
    (if r.apiID == apiID then applyMatchUpdate inc r else r).result = r.result := by
  by_cases h : (r.apiID == apiID) = true
  · rw [if_pos h]; exact ⟨rfl, rfl, rfl⟩
  · rw [if_neg h]; exact ⟨rfl, rfl, rfl⟩

theorem calcGuard_apiID (apiID result : String) (r : Match) :
    (if r.apiID == apiID then { r with calculated := true, result := some result } else r).apiID =
      r.apiID := by
  by_cases h : (r.apiID == apiID) = true
  · rw [if_pos h]
  · rw [if_neg h]

/-- Inv survives any per-row rewrite that keeps identity, the calculated
flag and the result (with bets and users untouched). -/
theorem Inv_map_rows (st : DBState) (g : Match → Match)
    (hg : ∀ r, (g r).apiID = r.apiID ∧ (g r).calculated = r.calculated ∧ (g r).result = r.result)
    (h : Inv st) : Inv { st with matchRows := st.matchRows.map g } := by
  intro m' hm' hcalc
  simp only [List.mem_map] at hm'
  obtain ⟨r, hr, hrr⟩ := hm'
  rw [← hrr] at hcalc
  rw [(hg r).2.1] at hcalc
  obtain ⟨hres, hbets⟩ := h r hr hcalc
  constructor
  · rw [← hrr, (hg r).2.2]; exact hres
  · intro b hb hbm
    rw [← hrr, (hg r).1] at hbm
    exact hbets b hb hbm

theorem Unique_map_rows (st : DBState) (g : Match → Match)
    (hg : ∀ r, (g r).apiID = r.apiID) (h : UniqueIDs st) :
    UniqueIDs { st with matchRows := st.matchRows.map g } := by
  unfold UniqueIDs at h ⊢
  rw [show ({ st with matchRows := st.matchRows.map g } : DBState).matchRows =
    st.matchRows.map g from rfl]
  rw [map_apiID_eq st.matchRows g hg]
  exact h

theorem Inv_append_row (st : DBState) (row : Match) (hrow : row.calculated = false)
    (h : Inv st) : Inv { st with matchRows := st.matchRows ++ [row] } := by
  intro m' hm' hcalc
  rcases List.mem_append.mp hm' with hin | hin
  · exact h m' hin hcalc
  · rw [List.mem_singleton.mp hin, hrow] at hcalc
    exact absurd hcalc (by simp)

theorem Unique_append_row (st : DBState) (row : Match)
    (hnew : GetMatchByAPIID st row.apiID = none) (h : UniqueIDs st) :
    UniqueIDs { st with matchRows := st.matchRows ++ [row] } := by
  unfold UniqueIDs at h ⊢
  rw [show ({ st with matchRows := st.matchRows ++ [row] } : DBState).matchRows =
    st.matchRows ++ [row] from rfl]
  rw [List.map_append]
  rw [List.nodup_append]
  refine ⟨h, List.nodup_singleton _, ?_⟩
  intro a ha hb
  rw [show (List.map Match.apiID [row]) = [row.apiID] from rfl, List.mem_singleton] at hb
  subst hb
  obtain ⟨x, hx, hxa⟩ := List.mem_map.mp ha
  have hnone : st.matchRows.find? (fun m => m.apiID == row.apiID) = none := hnew
  exact absurd (beq_iff_eq.mpr hxa) (by simpa using List.find?_eq_none.mp hnone x hx)

/-- The odds-sync step either leaves the store unchanged, merge-updates
the fixture's rows, or appends a fresh uncalculated row. -/
theorem oddsSyncOne_state_cases (st : DBState) (ev : OddsAPIEvent) :
    (oddsSyncOne st ev).1 = st ∨
    (∃ inc, (oddsSyncOne st ev).1 = UpdateMatchByAPIID st ev.id inc) ∨
    (∃ row, row.calculated = false ∧ GetMatchByAPIID st row.apiID = none ∧
      (oddsSyncOne st ev).1 = { st with matchRows := st.matchRows ++ [row] }) := by
  cases hx : GetMatchByAPIID st ev.id with
  | some x =>
    obtain ⟨inc, _, heq⟩ := oddsSyncOne_found hx
    exact Or.inr (Or.inl ⟨inc, heq⟩)
  | none =>
    rw [oddsSyncOne_notfound hx]
    by_cases hc : ((processOddsEvent ev).homeOdds.isNone || (processOddsEvent ev).drawOdds.isNone ||
        (processOddsEvent ev).awayOdds.isNone) = true
    · rw [if_pos hc]; exact Or.inl rfl
    · rw [if_neg hc]
      refine Or.inr (Or.inr ⟨insertRow (processOddsEvent ev), ?_, ?_, ?_⟩)
      · have : (insertRow (processOddsEvent ev)).calculated =
            (processOddsEvent ev).calculated := rfl
        rw [this]
        exact (processOddsEvent_fields ev).2.2.1
      · have hid : (insertRow (processOddsEvent ev)).apiID = ev.id :=
          (processOddsEvent_fields ev).1
        rw [hid]
        exact hx
      · dsimp only
        rw [UpsertMatch_insert (show GetMatchByAPIID st (processOddsEvent ev).apiID = none by
          rw [(processOddsEvent_fields ev).1]; exact hx)]

/-- The scores-sync step either merge-updates the fixture's rows or
appends a fresh uncalculated row. -/
theorem scoresSyncOne_state_cases (st : DBState) (sev : ScoresAPIEvent) :
    (∃ inc, (scoresSyncOne st sev).1 = UpdateMatchByAPIID st sev.id inc) ∨
    (∃ row, row.calculated = false ∧ GetMatchByAPIID st row.apiID = none ∧
      (scoresSyncOne st sev).1 = { st with matchRows := st.matchRows ++ [row] }) := by
  cases hx : GetMatchByAPIID st sev.id with
  | some x =>
    obtain ⟨inc, _, heq⟩ := scoresSyncOne_found hx
    exact Or.inl ⟨inc, heq⟩
  | none =>
    rw [scoresSyncOne_notfound hx]
    refine Or.inr ⟨insertRow { processScoreEvent sev with
      homeOdds := none, drawOdds := none, awayOdds := none }, rfl, ?_, rfl⟩
    have hid : (insertRow { processScoreEvent sev with
        homeOdds := none, drawOdds := none, awayOdds := none }).apiID = sev.id := rfl
    rw [hid]
    exact hx

theorem oddsSyncOne_preserves (st : DBState) (ev : OddsAPIEvent)
    (hI : Inv st) (hU : UniqueIDs st) :
    Inv (oddsSyncOne st ev).1 ∧ UniqueIDs (oddsSyncOne st ev).1 := by
  rcases oddsSyncOne_state_cases st ev with h | ⟨inc, h⟩ | ⟨row, hc, hn, h⟩
  · rw [h]; exact ⟨hI, hU⟩
  · rw [h]
    unfold UpdateMatchByAPIID
    exact ⟨Inv_map_rows st _ (fun r => updateGuard_frame ev.id inc r) hI,
      Unique_map_rows st _ (fun r => (updateGuard_frame ev.id inc r).1) hU⟩
  · rw [h]
    exact ⟨Inv_append_row st row hc hI, Unique_append_row st row hn hU⟩

theorem scoresSyncOne_preserves (st : DBState) (sev : ScoresAPIEvent)
    (hI : Inv st) (hU : UniqueIDs st) :
    Inv (scoresSyncOne st sev).1 ∧ UniqueIDs (scoresSyncOne st sev).1 := by
  rcases scoresSyncOne_state_cases st sev with ⟨inc, h⟩ | ⟨row, hc, hn, h⟩
  · rw [h]
    unfold UpdateMatchByAPIID
    exact ⟨Inv_map_rows st _ (fun r => updateGuard_frame sev.id inc r) hI,
      Unique_map_rows st _ (fun r => (updateGuard_frame sev.id inc r).1) hU⟩
  · rw [h]
    exact ⟨Inv_append_row st row hc hI, Unique_append_row st row hn hU⟩

theorem settleBetStatus_terminal (apiID result : String) (b : Bet)
    (hm : b.matchID = apiID) : (settleBetStatus apiID result b).status ≠ "pending" := by
  unfold settleBetStatus
  by_cases hp : b.status = "pending"
  · rw [if_pos (by simp [hm, hp])]
    dsimp only
    by_cases ht : (b.betType == result) = true
    · rw [if_pos ht]; decide
    · rw [if_neg ht]; decide
  · rw [if_neg (by simp [beq_eq_false_iff_ne.mpr hp])]
    exact hp

theorem settleBetStatus_keeps_status (apiID result : String) (b : Bet)
    (hp : b.status ≠ "pending") : (settleBetStatus apiID result b).status = b.status := by
  unfold settleBetStatus
  rw [if_neg (by simp [beq_eq_false_iff_ne.mpr hp])]

theorem settleOneMatch_inv (f : String → ℚ → Bool) (st : DBState) (c : Match)
    (hI : Inv st) : Inv (settleOneMatch f st c).1 := by
  rcases settleOneMatch_cases f st c with h | ⟨hs, aw, st', hh, ha, hok, h⟩
  · rw [h]; exact hI
  · rw [h]
    have hbets_eq : (UpdateMatchCalculated st' c.apiID (computeResult hs aw)).bets =
        st.bets.map (settleBetStatus c.apiID (computeResult hs aw)) := by
      rw [UpdateMatchCalculated_bets, UpdateBets_ok_bets hok]
    intro m' hm' hcalc
    have hrows : (UpdateMatchCalculated st' c.apiID (computeResult hs aw)).matchRows =
        st.matchRows.map (fun m =>
          if m.apiID == c.apiID then
            { m with calculated := true, result := some (computeResult hs aw) } else m) := by
      unfold UpdateMatchCalculated
      rw [UpdateBets_ok_matchRows hok]
    rw [hrows] at hm'
    obtain ⟨r, hr, hrr⟩ := List.mem_map.mp hm'
    by_cases hg : r.apiID = c.apiID
    · rw [if_pos (beq_iff_eq.mpr hg)] at hrr
      constructor
      · rw [← hrr]; simp
      · intro b' hb' hbm
        rw [hbets_eq] at hb'
        obtain ⟨b, hb, hbb⟩ := List.mem_map.mp hb'
        rw [← hbb, settleBetStatus_matchID] at hbm
        rw [← hbb]
        apply settleBetStatus_terminal
        rw [hbm, ← hrr]
        exact hg
    · rw [if_neg (by simp [hg])] at hrr
      have hrc : r.calculated = true := by rw [hrr]; exact hcalc
      obtain ⟨hres, hbets⟩ := hI r hr hrc
      constructor
      · rw [← hrr]; exact hres
      · intro b' hb' hbm
        rw [hbets_eq] at hb'
        obtain ⟨b, hb, hbb⟩ := List.mem_map.mp hb'
        rw [← hbb, settleBetStatus_matchID] at hbm
        rw [← hrr] at hbm
        have hbnp : b.status ≠ "pending" := hbets b hb hbm
        rw [← hbb, settleBetStatus_keeps_status _ _ _ hbnp]
        exact hbnp

theorem settleOneMatch_unique (f : String → ℚ → Bool) (st : DBState) (c : Match)
    (hU : UniqueIDs st) : UniqueIDs (settleOneMatch f st c).1 := by
  rcases settleOneMatch_cases f st c with h | ⟨hs, aw, st', _, _, hok, h⟩
  · rw [h]; exact hU
  · rw [h]
    unfold UniqueIDs UpdateMatchCalculated
    rw [show ({ st' with matchRows := st'.matchRows.map (fun m =>
        if m.apiID == c.apiID then
          { m with calculated := true, result := some (computeResult hs aw) } else m) } :
        DBState).matchRows = st'.matchRows.map _ from rfl]
    rw [UpdateBets_ok_matchRows hok,
      map_apiID_eq _ _ (calcGuard_apiID c.apiID (computeResult hs aw))]
    exact hU

theorem settleLoop_preserves (f : String → ℚ → Bool) (cands : List Match) :
    ∀ st : DBState, Inv st → UniqueIDs st →
      Inv (settleLoop f st cands) ∧ UniqueIDs (settleLoop f st cands) := by
  induction cands with
  | nil => intro st hI hU; exact ⟨hI, hU⟩
  | cons c rest ih =>
    intro st hI hU
    rw [settleLoop_cons]
    exact ih (settleOneMatch f st c).1 (settleOneMatch_inv f st c hI)
      (settleOneMatch_unique f st c hU)

theorem oddsSyncLoop_preserves (evs : List OddsAPIEvent) :
    ∀ st : DBState, Inv st → UniqueIDs st →
      Inv (oddsSyncLoopState st evs) ∧ UniqueIDs (oddsSyncLoopState st evs) := by
  induction evs with
  | nil => intro st hI hU; exact ⟨hI, hU⟩
  | cons ev rest ih =>
    intro st hI hU
    have h1 := oddsSyncOne_preserves st ev hI hU
    exact ih (oddsSyncOne st ev).1 h1.1 h1.2

theorem scoresSyncLoop_preserves (evs : List ScoresAPIEvent) :
    ∀ st : DBState, Inv st → UniqueIDs st →
      Inv (scoresSyncLoopState st evs) ∧ UniqueIDs (scoresSyncLoopState st evs) := by
  induction evs with
  | nil => intro st hI hU; exact ⟨hI, hU⟩
  | cons ev rest ih =>
    intro st hI hU
    have h1 := scoresSyncOne_preserves st ev hI hU
    exact ih (scoresSyncOne st ev).1 h1.1 h1.2

theorem engineStep_preserves {st st' : DBState} (h : EngineStep st st')
    (hI : Inv st) (hU : UniqueIDs st) : Inv st' ∧ UniqueIDs st' := by
  cases h with
  | odds evs => exact oddsSyncLoop_preserves evs st hI hU
  | scores evs => exact scoresSyncLoop_preserves evs st hI hU
  | settle f => exact settleLoop_preserves f (GetCompletedUncalculatedMatches st) st hI hU

theorem oddsSyncOne_keeps (st : DBState) (ev : OddsAPIEvent) :
    ∀ m ∈ st.matchRows, ∃ m' ∈ (oddsSyncOne st ev).1.matchRows,
      m'.apiID = m.apiID ∧ m'.calculated = m.calculated ∧ m'.result = m.result := by
  intro m hm
  rcases oddsSyncOne_state_cases st ev with h | ⟨inc, h⟩ | ⟨row, _, _, h⟩
  · rw [h]; exact ⟨m, hm, rfl, rfl, rfl⟩
  · rw [h]
    exact ⟨_, List.mem_map.mpr ⟨m, hm, rfl⟩, (updateGuard_frame ev.id inc m).1,
      (updateGuard_frame ev.id inc m).2.1, (updateGuard_frame ev.id inc m).2.2⟩
  · rw [h]
    exact ⟨m, List.mem_append_left _ hm, rfl, rfl, rfl⟩

theorem scoresSyncOne_keeps (st : DBState) (sev : ScoresAPIEvent) :
    ∀ m ∈ st.matchRows, ∃ m' ∈ (scoresSyncOne st sev).1.matchRows,
      m'.apiID = m.apiID ∧ m'.calculated = m.calculated ∧ m'.result = m.result := by
  intro m hm
  rcases scoresSyncOne_state_cases st sev with ⟨inc, h⟩ | ⟨row, _, _, h⟩
  · rw [h]
    exact ⟨_, List.mem_map.mpr ⟨m, hm, rfl⟩, (updateGuard_frame sev.id inc m).1,
      (updateGuard_frame sev.id inc m).2.1, (updateGuard_frame sev.id inc m).2.2⟩
  · rw [h]
    exact ⟨m, List.mem_append_left _ hm, rfl, rfl, rfl⟩

theorem oddsSyncLoop_keeps (evs : List OddsAPIEvent) :
    ∀ (st : DBState), ∀ m ∈ st.matchRows, ∃ m' ∈ (oddsSyncLoopState st evs).matchRows,
      m'.apiID = m.apiID ∧ m'.calculated = m.calculated ∧ m'.result = m.result := by
  induction evs with
  | nil => intro st m hm; exact ⟨m, hm, rfl, rfl, rfl⟩
  | cons ev rest ih =>
    intro st m hm
    obtain ⟨m1, hm1, e1, e2, e3⟩ := oddsSyncOne_keeps st ev m hm
    obtain ⟨m', hm', d1, d2, d3⟩ := ih (oddsSyncOne st ev).1 m1 hm1
    exact ⟨m', hm', d1.trans e1, d2.trans e2, d3.trans e3⟩

theorem scoresSyncLoop_keeps (evs : List ScoresAPIEvent) :
    ∀ (st : DBState), ∀ m ∈ st.matchRows, ∃ m' ∈ (scoresSyncLoopState st evs).matchRows,
      m'.apiID = m.apiID ∧ m'.calculated = m.calculated ∧ m'.result = m.result := by
  induction evs with
  | nil => intro st m hm; exact ⟨m, hm, rfl, rfl, rfl⟩
  | cons ev rest ih =>
    intro st m hm
    obtain ⟨m1, hm1, e1, e2, e3⟩ := scoresSyncOne_keeps st ev m hm
    obtain ⟨m', hm', d1, d2, d3⟩ := ih (scoresSyncOne st ev).1 m1 hm1
    exact ⟨m', hm', d1.trans e1, d2.trans e2, d3.trans e3⟩

/-- Under the unique-`api_id` schema constraint, a settlement pass never
touches an already-calculated row. -/
theorem settleState_keeps (f : String → ℚ → Bool) (st : DBState) (m : Match)
    (hU : UniqueIDs st) (hm : m ∈ st.matchRows) (hc : m.calculated = true) :
    m ∈ (settleState f st).matchRows := by
  unfold settleState
  apply settleLoop_untouched f _ st m hm
  intro c hcand hid
  have hcmem : c ∈ st.matchRows := (List.mem_filter.mp hcand).1
  have hcc : candMatch c = true := (List.mem_filter.mp hcand).2
  have : m = c := List.inj_on_of_nodup_map hU hm hcmem hid
  subst this
  unfold candMatch at hcc
  rw [hc] at hcc
  simp at hcc

theorem engineStep_keeps_calculated {st st' : DBState} (h : EngineStep st st')
    (hU : UniqueIDs st) :
    ∀ m ∈ st.matchRows, m.calculated = true →
      ∃ m' ∈ st'.matchRows, m'.apiID = m.apiID ∧ m'.calculated = true ∧ m'.result = m.result := by
  intro m hm hc
  cases h with
  | odds evs =>
    obtain ⟨m', hm', e1, e2, e3⟩ := oddsSyncLoop_keeps evs st m hm
    exact ⟨m', hm', e1, by rw [e2]; exact hc, e3⟩
  | scores evs =>
    obtain ⟨m', hm', e1, e2, e3⟩ := scoresSyncLoop_keeps evs st m hm
    exact ⟨m', hm', e1, by rw [e2]; exact hc, e3⟩
  | settle f => exact ⟨m, settleState_keeps f st m hU hm hc, rfl, hc, rfl⟩

/-- C7: from any state satisfying the settled-match invariant with the
schema's unique `api_id`, every state reachable by engine operations still
satisfies it — a calculated match has a non-null result and no pending
wager — and no further operation ever resets `calculated` or changes the
stored `result`. -/
theorem claim7_settled_terminal (st0 : DBState) (hI : Inv st0) (hU : UniqueIDs st0) :
    ∀ st, Reachable st0 st →
      (Inv st ∧ UniqueIDs st) ∧
      (∀ st', EngineStep st st' → ∀ m ∈ st.matchRows, m.calculated = true →
        ∃ m' ∈ st'.matchRows, m'.apiID = m.apiID ∧ m'.calculated = true ∧
          m'.result = m.result) := by
  intro st hreach
  induction hreach with
  | refl => exact ⟨⟨hI, hU⟩, fun st' hstep => engineStep_keeps_calculated hstep hU⟩
  | tail hr hstep ih =>
    have h2 := engineStep_preserves hstep ih.1.1 ih.1.2
    exact ⟨h2, fun st'' hstep2 => engineStep_keeps_calculated hstep2 h2.2⟩

/-- Witness for C7: the invariant survives a settlement pass over the
concrete store `w1State`. -/
theorem claim7_settled_terminal_witness :
    Inv (settleState noFail w1State) ∧ UniqueIDs (settleState noFail w1State) :=
  (claim7_settled_terminal w1State (by unfold Inv; decide) (by unfold UniqueIDs; decide)
    (settleState noFail w1State)
    (Reachable.tail Reachable.refl (EngineStep.settle w1State noFail))).1

end FreeBet
